import Mathlib

/-!
Shallow embedding of the Sentence Verification Engine from
`src/grammar_online.py` (Vopeitno/Dictionary).

Python strings are modelled as Lean `String` (lists of characters); the
ASCII-oriented string primitives (`str.lower`, `str.strip`, `str.split`,
`re.findall` on the class `[a-zA-Z']`) are reproduced character by
character.  The remote grammar-service call of `check_sentence` is passed
in as an explicit outcome (`Except String (List MatchRec)`): `Except.ok`
is a successful HTTP round trip returning the match list, `Except.error`
is any raised exception, carrying its text.  A Python function that can
raise on some input (`used_word_in_sentence` indexes `content[0]` without
a guard) is modelled with `Option`, `none` standing for the raised
`IndexError`.
-/

namespace GrammarOnline

/-- ASCII lowercasing of one character, as `str.lower` acts on the
ASCII range.  Python lowercases the whole text before tokenizing. -/
def asciiLowerChar (c : Char) : Char :=
  if 'A' ≤ c ∧ c ≤ 'Z' then Char.ofNat (c.toNat + 32) else c

/-- The whitespace characters recognized by `str.strip` / `str.split`
(ASCII range). -/
def isPySpace (c : Char) : Bool :=
  c = ' ' || c = '\t' || c = '\n' || c = '\r' || c = '\x0b' || c = '\x0c'

/-- A character matched by the token class `[a-zA-Z']` of `_tokens`. -/
def isWordChar (c : Char) : Bool :=
  ('a' ≤ c && c ≤ 'z') || ('A' ≤ c && c ≤ 'Z') || c = '\x27'

/-- Emit the pending (reversed) accumulator as a token, if non-empty. -/
def flushAcc (acc : List Char) : List String :=
  match acc with
  | [] => []
  | _ => [String.mk acc.reverse]

/-- Scanner behind `_tokens`: maximal runs of `[a-zA-Z']` characters,
lowercased (`re.findall(r"[a-zA-Z']+", text.lower())`). -/
def tokensAux : List Char → List Char → List String
  | [], acc => flushAcc acc
  | c :: cs, acc =>
    if isWordChar c then tokensAux cs (asciiLowerChar c :: acc)
    else flushAcc acc ++ tokensAux cs []

/-- `_tokens(text)` from the source. -/
def _tokens (text : String) : List String :=
  tokensAux text.data []

/-- Scanner behind `str.split()` (no argument): split on whitespace
runs, discarding empty pieces. -/
def wordsAux : List Char → List Char → List String
  | [], acc => flushAcc acc
  | c :: cs, acc =>
    if isPySpace c then flushAcc acc ++ wordsAux cs []
    else wordsAux cs (c :: acc)

/-- `" ".join(parts)`. -/
def joinSpace : List String → String
  | [] => ""
  | [x] => x
  | x :: xs => x ++ " " ++ joinSpace xs

/-- `s.strip()`: remove leading and trailing whitespace. -/
def pyStrip (s : String) : String :=
  String.mk (((s.data.dropWhile isPySpace).reverse.dropWhile isPySpace).reverse)

/-- `_norm(s) = " ".join(str(s).strip().lower().split())`. -/
def _norm (s : String) : String :=
  joinSpace (wordsAux ((pyStrip s).data.map asciiLowerChar) [])

/-- Whether the pattern (first argument) is an initial segment of the
second list. -/
def listStartsWith {α : Type} [DecidableEq α] : List α → List α → Bool
  | [], _ => true
  | _ :: _, [] => false
  | p :: ps, x :: xs => if p = x then listStartsWith ps xs else false

/-- `s.endswith(suf)`. -/
def strEndsWith (s suf : String) : Bool :=
  listStartsWith suf.data.reverse s.data.reverse

/-- Scanner behind `v.split("/")`: split on every slash, keeping empty
pieces (Python `str.split` with an explicit separator). -/
def splitSlashAux : List Char → List Char → List String
  | [], acc => [String.mk acc.reverse]
  | c :: cs, acc =>
    if c = '/' then String.mk acc.reverse :: splitSlashAux cs []
    else splitSlashAux cs (c :: acc)

/-- `v.split("/")`. -/
def splitSlash (s : String) : List String :=
  splitSlashAux s.data []

/-- `s[:-1]` on a non-empty string. -/
def dropLastStr (s : String) : String :=
  String.mk s.data.dropLast

/-- `s[-2]` when it exists (guarded by a length test at every use site,
exactly as the source short-circuits). -/
def penultChar (s : String) : Char :=
  match s.data.reverse with
  | _ :: c :: _ => c
  | _ => ' '

/-- The `IRREGULAR` verb table: base, V2 alternates, V3 alternates
(alternates separated by a slash). -/
def IRREGULAR : List (String × String × String) :=
  [ ("be", "was/were", "been"),
    ("become", "became", "become"),
    ("begin", "began", "begun"),
    ("break", "broke", "broken"),
    ("bring", "brought", "brought"),
    ("build", "built", "built"),
    ("buy", "bought", "bought"),
    ("catch", "caught", "caught"),
    ("choose", "chose", "chosen"),
    ("come", "came", "come"),
    ("do", "did", "done"),
    ("drink", "drank", "drunk"),
    ("drive", "drove", "driven"),
    ("eat", "ate", "eaten"),
    ("fall", "fell", "fallen"),
    ("feel", "felt", "felt"),
    ("find", "found", "found"),
    ("fly", "flew", "flown"),
    ("forget", "forgot", "forgotten"),
    ("get", "got", "got/gotten"),
    ("give", "gave", "given"),
    ("go", "went", "gone"),
    ("have", "had", "had"),
    ("hear", "heard", "heard"),
    ("know", "knew", "known"),
    ("leave", "left", "left"),
    ("lose", "lost", "lost"),
    ("make", "made", "made"),
    ("meet", "met", "met"),
    ("pay", "paid", "paid"),
    ("read", "read", "read"),
    ("run", "ran", "run"),
    ("say", "said", "said"),
    ("see", "saw", "seen"),
    ("sell", "sold", "sold"),
    ("send", "sent", "sent"),
    ("sit", "sat", "sat"),
    ("sleep", "slept", "slept"),
    ("speak", "spoke", "spoken"),
    ("spend", "spent", "spent"),
    ("stand", "stood", "stood"),
    ("take", "took", "taken"),
    ("teach", "taught", "taught"),
    ("tell", "told", "told"),
    ("think", "thought", "thought"),
    ("understand", "understood", "understood"),
    ("wear", "wore", "worn"),
    ("write", "wrote", "written") ]

/-- `OPTIONAL_TOKENS` (the source set literal lists "her" twice; a set
dedups, and list membership is unaffected). -/
def OPTIONAL_TOKENS : List String :=
  [ "a", "an", "the", "to", "in", "on", "at", "of", "for", "with",
    "about", "from", "into", "it", "this", "that", "these", "those",
    "my", "your", "his", "her", "our", "their", "me", "him", "her",
    "us", "them" ]

/-- The 12 supported tense names, in source order. -/
def TENSES : List String :=
  [ "Present Simple",
    "Past Simple",
    "Future Simple",
    "Present Continuous",
    "Past Continuous",
    "Future Continuous",
    "Present Perfect",
    "Past Perfect",
    "Future Perfect",
    "Present Perfect Continuous",
    "Past Perfect Continuous",
    "Future Perfect Continuous" ]

/-- `_simple_forms(base)`: the generated inflection set, as a list whose
membership coincides with the Python set (duplicates are harmless). -/
def _simple_forms (base : String) : List String :=
  let b := _norm base
  if b = "" then []
  else
    let third :=
      (if strEndsWith b "y" && decide (2 < b.length)
          && !("aeiou".data.contains (penultChar b))
       then [dropLastStr b ++ "ies"] else []) ++
      (if strEndsWith b "s" || strEndsWith b "x" || strEndsWith b "z"
          || strEndsWith b "ch" || strEndsWith b "sh"
       then [b ++ "es"] else []) ++
      [b ++ "s"]
    let past := if strEndsWith b "e" then [b ++ "d"] else [b ++ "ed"]
    let ing :=
      if strEndsWith b "e" && !(strEndsWith b "ee")
      then [dropLastStr b ++ "ing"] else [b ++ "ing"]
    let irr :=
      match List.lookup b IRREGULAR with
      | some (v2, v3) => (splitSlash v2).map _norm ++ (splitSlash v3).map _norm
      | none => []
    (b :: (third ++ past ++ ing ++ irr)).filter (fun f => f != "")

/-- `_required_content_tokens(required_word)`. -/
def _required_content_tokens (required_word : String) : List String :=
  (_tokens required_word).filter (fun t => !(OPTIONAL_TOKENS.contains t))

/-- The phrase loop of `used_word_in_sentence`: some position of the
token list carries a head form and is followed immediately by the whole
literal tail (`i + m >= n` simply means the tail does not fit). -/
def phrase_scan (head_forms tl : List String) : List String → Bool
  | [] => false
  | t :: rest =>
    (head_forms.contains t && listStartsWith tl rest) || phrase_scan head_forms tl rest

/-- `used_word_in_sentence(sentence, required_word)`.  `none` models the
`IndexError` raised by `content[0]` when the content list is empty (a
required phrase with no `[a-zA-Z']` characters at all). -/
def used_word_in_sentence (sentence required_word : String) : Option Bool :=
  let toks := _tokens sentence
  let content0 := _required_content_tokens required_word
  let content := if content0 = [] then _tokens required_word else content0
  match content with
  | [] => none
  | [c] => some ((_simple_forms c).any (fun f => toks.contains f))
  | head :: tl => some (phrase_scan (_simple_forms head) tl toks)

/-- `_ends_with_ed(tok)`. -/
def _ends_with_ed (tok : String) : Bool :=
  strEndsWith tok "ed" && decide (3 < tok.length)

/-- `_looks_like_v3(tok)`. -/
def _looks_like_v3 (tok : String) : Bool :=
  _ends_with_ed tok
    || IRREGULAR.any (fun e => ((splitSlash e.2.2).map pyStrip).contains tok)

/-- `_looks_like_v2(tok)`. -/
def _looks_like_v2 (tok : String) : Bool :=
  _ends_with_ed tok
    || IRREGULAR.any (fun e => ((splitSlash e.2.1).map pyStrip).contains tok)

/-- `has_ing_after(aux_set)`: some token of the aux set immediately
followed by an `-ing` token. -/
def has_ing_after (aux_set : List String) : List String → Bool
  | a :: b :: rest =>
    (aux_set.contains a && strEndsWith b "ing") || has_ing_after aux_set (b :: rest)
  | _ => false

/-- `has_have_v3()`. -/
def has_have_v3 : List String → Bool
  | a :: b :: rest =>
    ((["have", "has"] : List String).contains a && _looks_like_v3 b)
      || has_have_v3 (b :: rest)
  | _ => false

/-- `has_had_v3()`. -/
def has_had_v3 : List String → Bool
  | a :: b :: rest =>
    (a = "had" && _looks_like_v3 b) || has_had_v3 (b :: rest)
  | _ => false

/-- `has_will_have_v3()`. -/
def has_will_have_v3 : List String → Bool
  | a :: b :: c :: rest =>
    (a = "will" && b = "have" && _looks_like_v3 c)
      || has_will_have_v3 (b :: c :: rest)
  | _ => false

/-- `has_will_be_ing()`. -/
def has_will_be_ing : List String → Bool
  | a :: b :: c :: rest =>
    (a = "will" && b = "be" && strEndsWith c "ing")
      || has_will_be_ing (b :: c :: rest)
  | _ => false

/-- `has_have_been_ing()`. -/
def has_have_been_ing : List String → Bool
  | a :: b :: c :: rest =>
    ((["have", "has"] : List String).contains a && b = "been" && strEndsWith c "ing")
      || has_have_been_ing (b :: c :: rest)
  | _ => false

/-- `has_had_been_ing()`. -/
def has_had_been_ing : List String → Bool
  | a :: b :: c :: rest =>
    (a = "had" && b = "been" && strEndsWith c "ing")
      || has_had_been_ing (b :: c :: rest)
  | _ => false

/-- `has_will_have_been_ing()`. -/
def has_will_have_been_ing : List String → Bool
  | a :: b :: c :: d :: rest =>
    (a = "will" && b = "have" && c = "been" && strEndsWith d "ing")
      || has_will_have_been_ing (b :: c :: d :: rest)
  | _ => false

/-- `tense_heuristic_ok(sentence, tense)`. -/
def tense_heuristic_ok (sentence tense : String) : Bool × String :=
  let toks := _tokens (pyStrip sentence)
  let has_will := toks.contains "will"
  let has_had := toks.contains "had"
  let has_been := toks.contains "been"
  let has_am_is_are := (["am", "is", "are"] : List String).any (fun t => toks.contains t)
  let has_was_were := (["was", "were"] : List String).any (fun t => toks.contains t)
  if tense = "Future Simple" then
    if has_will then (true, "Found \x27will\x27.") else (false, "Expected: will + V1.")
  else if tense = "Past Simple" then
    if toks.contains "did" then (true, "Found \x27did\x27.")
    else if toks.any _looks_like_v2 then
      (true, "Found V2 marker (-ed or irregular V2).")
    else (false, "Expected: did + V1 or V2.")
  else if tense = "Present Simple" then
    if has_will || has_had || has_been then
      (false, "Looks like Future/Perfect (will/had/been found).")
    else if (has_am_is_are || has_was_were)
        && toks.any (fun t => strEndsWith t "ing") then
      (false, "Looks like Continuous (be + V-ing).")
    else (true, "No strong markers of other tenses.")
  else if tense = "Present Continuous" then
    if has_ing_after ["am", "is", "are"] toks then (true, "Found am/is/are + V-ing.")
    else (false, "Expected: am/is/are + V-ing.")
  else if tense = "Past Continuous" then
    if has_ing_after ["was", "were"] toks then (true, "Found was/were + V-ing.")
    else (false, "Expected: was/were + V-ing.")
  else if tense = "Future Continuous" then
    if has_will_be_ing toks then (true, "Found will be + V-ing.")
    else (false, "Expected: will be + V-ing.")
  else if tense = "Present Perfect" then
    if has_have_v3 toks then (true, "Found have/has + V3.")
    else (false, "Expected: have/has + V3.")
  else if tense = "Past Perfect" then
    if has_had_v3 toks then (true, "Found had + V3.")
    else (false, "Expected: had + V3.")
  else if tense = "Future Perfect" then
    if has_will_have_v3 toks then (true, "Found will have + V3.")
    else (false, "Expected: will have + V3.")
  else if tense = "Present Perfect Continuous" then
    if has_have_been_ing toks then (true, "Found have/has been + V-ing.")
    else (false, "Expected: have/has been + V-ing.")
  else if tense = "Past Perfect Continuous" then
    if has_had_been_ing toks then (true, "Found had been + V-ing.")
    else (false, "Expected: had been + V-ing.")
  else if tense = "Future Perfect Continuous" then
    if has_will_have_been_ing toks then (true, "Found will have been + V-ing.")
    else (false, "Expected: will have been + V-ing.")
  else (false, "Unknown tense.")

/-- A match object returned by the grammar service.  `check_sentence`
reads only the `message` key (`first.get("message", "Errors found.")`),
which may be absent, hence the `Option`. -/
structure MatchRec where
  message : Option String
deriving DecidableEq

/-- `SentenceCheckResult` from the source. -/
structure SentenceCheckResult where
  ok : Bool
  used_word : Bool
  tense_ok : Bool
  grammar_ok : Bool
  message : String
  match_list : List MatchRec
deriving DecidableEq

/-- The `msg_parts` list built at the end of `check_sentence`, in source
order. -/
def msg_parts (used tense_ok : Bool) (tense_msg : String)
    (grammar_ok : Bool) (grammar_msg : String) (ok : Bool) : List String :=
  (if used then [] else ["Word not used (content token not found)."]) ++
  (if tense_ok then [] else ["Tense mismatch: " ++ tense_msg]) ++
  (if grammar_ok then [] else [grammar_msg]) ++
  (if ok then ["Correct."] else [])

/-- `check_sentence(sentence, required_word, tense)`.  The outcome of the
remote collaborator call is an explicit argument; `none` in the result
models the `IndexError` escaping from `used_word_in_sentence`. -/
def check_sentence (sentence required_word tense : String)
    (grammar : Except String (List MatchRec)) : Option SentenceCheckResult :=
  match used_word_in_sentence sentence required_word with
  | none => none
  | some used =>
    let tr := tense_heuristic_ok sentence tense
    let tense_ok := tr.1
    let tense_msg := tr.2
    let gres : List MatchRec × Bool × String :=
      match grammar with
      | Except.ok ms =>
        match ms with
        | [] => ([], true, "Grammar: OK.")
        | first :: rest =>
          (first :: rest, false, "Grammar: " ++ first.message.getD "Errors found.")
      | Except.error e => ([], false, "Grammar check error: " ++ e)
    let mlist := gres.1
    let grammar_ok := gres.2.1
    let grammar_msg := gres.2.2
    let ok := used && tense_ok && grammar_ok
    let parts := msg_parts used tense_ok tense_msg grammar_ok grammar_msg ok
    some
      { ok := ok
        used_word := used
        tense_ok := tense_ok
        grammar_ok := grammar_ok
        message := if parts = [] then "OK" else joinSpace parts
        match_list := mlist }

end GrammarOnline

namespace GrammarOnline

/-! ### Tokenizer lemmas -/

theorem isPySpace_not_word {c : Char} (h : isPySpace c = true) : isWordChar c = false := by
  simp only [isPySpace, Bool.or_eq_true, decide_eq_true_eq] at h
  rcases h with ((((h | h) | h) | h) | h) | h <;> subst h <;> decide

theorem tokensAux_all_sep {p : List Char} (hp : ∀ c ∈ p, isWordChar c = false)
    (acc : List Char) : tokensAux p acc = flushAcc acc := by
  induction p generalizing acc with
  | nil => rfl
  | cons c cs ih =>
    have hc : isWordChar c = false := hp c (List.mem_cons_self c cs)
    have hcs : ∀ x ∈ cs, isWordChar x = false := fun x hx => hp x (List.mem_cons_of_mem c hx)
    simp [tokensAux, hc, ih hcs, flushAcc]

theorem tokensAux_append_sep {p : List Char} (hp : ∀ c ∈ p, isWordChar c = false)
    (xs : List Char) (acc : List Char) :
    tokensAux (xs ++ p) acc = tokensAux xs acc := by
  induction xs generalizing acc with
  | nil =>
    simp only [List.nil_append]
    exact tokensAux_all_sep hp acc
  | cons x xs ih =>
    simp only [List.cons_append, tokensAux, List.append_eq, ih]

theorem tokensAux_dropWhile_space (l : List Char) :
    tokensAux (l.dropWhile isPySpace) [] = tokensAux l [] := by
  induction l with
  | nil => rfl
  | cons c cs ih =>
    rw [List.dropWhile_cons]
    by_cases hc : isPySpace c = true
    · rw [if_pos hc, ih]
      have hw : isWordChar c = false := isPySpace_not_word hc
      simp [tokensAux, hw, flushAcc]
    · rw [if_neg hc]

theorem tokensAux_drop_trailing (m : List Char) :
    tokensAux ((m.reverse.dropWhile isPySpace).reverse) [] = tokensAux m [] := by
  have htsep : ∀ c ∈ (m.reverse.takeWhile isPySpace).reverse, isWordChar c = false :=
    fun c hc => isPySpace_not_word (List.mem_takeWhile_imp (List.mem_reverse.mp hc))
  have key : (m.reverse.dropWhile isPySpace).reverse
      ++ (m.reverse.takeWhile isPySpace).reverse = m := by
    rw [← List.reverse_append, List.takeWhile_append_dropWhile, List.reverse_reverse]
  calc tokensAux ((m.reverse.dropWhile isPySpace).reverse) []
      = tokensAux ((m.reverse.dropWhile isPySpace).reverse
          ++ (m.reverse.takeWhile isPySpace).reverse) [] :=
        (tokensAux_append_sep htsep _ []).symm
    _ = tokensAux m [] := by rw [key]

theorem tokens_strip (s : String) : _tokens (pyStrip s) = _tokens s := by
  show tokensAux (((s.data.dropWhile isPySpace).reverse.dropWhile isPySpace).reverse) []
      = tokensAux s.data []
  rw [tokensAux_drop_trailing, tokensAux_dropWhile_space]

/-! ### C7: Future Simple -/

/-- C7: `tenseMatches(sentence, "Future Simple")` returns true if and only
if the token `will` occurs anywhere in the sentence token sequence. -/
theorem future_simple_iff_will (s : String) :
    (tense_heuristic_ok s "Future Simple").1 = true ↔ "will" ∈ _tokens s := by
  have helem : ((_tokens s).contains "will" = true) ↔ "will" ∈ _tokens s := List.elem_iff
  rw [← helem]
  cases hc : (_tokens s).contains "will" with
  | false =>
    have hnm : ¬ ("will" ∈ _tokens s) := fun hm => by
      rw [helem.mpr hm] at hc
      exact Bool.true_eq_false.mp hc
    simp [tense_heuristic_ok, tokens_strip, hc, hnm]
  | true =>
    have hm : "will" ∈ _tokens s := helem.mp hc
    simp [tense_heuristic_ok, tokens_strip, hc, hm]

/-! ### C8: unknown tense names -/

/-- C8: for every sentence and every tense name outside the 12 fixed
identifiers, `tense_heuristic_ok` returns exactly
`(false, "Unknown tense.")`. -/
theorem unknown_tense_rejected (s t : String) (h : t ∉ TENSES) :
    tense_heuristic_ok s t = (false, "Unknown tense.") := by
  simp only [TENSES, List.mem_cons, List.not_mem_nil, or_false, not_or] at h
  obtain ⟨h1, h2, h3, h4, h5, h6, h7, h8, h9, h10, h11, h12⟩ := h
  simp [tense_heuristic_ok, h1, h2, h3, h4, h5, h6, h7, h8, h9, h10, h11, h12]

/-- Witness for C8 at a concrete unknown tense name. -/
theorem unknown_tense_rejected_witness :
    ("Past Future" ∉ TENSES)
      ∧ tense_heuristic_ok "hello" "Past Future" = (false, "Unknown tense.") :=
  ⟨by decide, unknown_tense_rejected "hello" "Past Future" (by decide)⟩

/-! ### C9: trailing punctuation invariance -/

/-- C9: appending a string of punctuation characters (no letters, no
apostrophes) to the sentence leaves `used_word_in_sentence` unchanged. -/
theorem used_word_trailing_punct_invariant (s p w : String)
    (hp : ∀ c ∈ p.data, isWordChar c = false) :
    used_word_in_sentence (s ++ p) w = used_word_in_sentence s w := by
  have hd : (s ++ p).data = s.data ++ p.data := by
    obtain ⟨ls⟩ := s
    obtain ⟨lp⟩ := p
    rfl
  have ht : _tokens (s ++ p) = _tokens s := by
    unfold _tokens
    rw [hd]
    exact tokensAux_append_sep hp s.data []
  simp only [used_word_in_sentence, ht]

/-- Witness for C9 at a concrete sentence and punctuation tail. -/
theorem used_word_trailing_punct_invariant_witness :
    (∀ c ∈ (".!?").data, isWordChar c = false)
      ∧ used_word_in_sentence ("He ran" ++ ".!?") "run"
          = used_word_in_sentence "He ran" "run" :=
  ⟨by decide, used_word_trailing_punct_invariant "He ran" ".!?" "run" (by decide)⟩

/-! ### C2: totality of the phrase matcher -/

/-- C2 counterexample: a required phrase with no letter or apostrophe at
all ("123") tokenizes to the empty list, the optional-token fallback
leaves the content list empty, and the phrase branch indexes
`content[0]` on an empty list: the call raises instead of returning a
boolean (modelled as `none`). -/
theorem used_word_raises_on_tokenless_phrase :
    used_word_in_sentence "hello" "123" = none := by rfl

/-- C2 amended: `used_word_in_sentence` returns a boolean (never raises)
for every sentence and every required phrase whose tokenization is
non-empty, i.e. that contains at least one `[a-zA-Z\x27]` character. -/
theorem used_word_total_on_token_bearing_phrase (s w : String)
    (h : _tokens w ≠ []) : ∃ b, used_word_in_sentence s w = some b := by
  simp only [used_word_in_sentence]
  have hne : (if _required_content_tokens w = [] then _tokens w
      else _required_content_tokens w) ≠ [] := by
    by_cases h0 : _required_content_tokens w = []
    · rw [if_pos h0]; exact h
    · rw [if_neg h0]; exact h0
  rcases hm : (if _required_content_tokens w = [] then _tokens w
      else _required_content_tokens w) with _ | ⟨c, tl⟩
  · exact absurd hm hne
  · rcases tl with _ | ⟨d, tl2⟩
    · exact ⟨_, rfl⟩
    · exact ⟨_, rfl⟩

/-- Witness for the amended C2 at a concrete token-bearing phrase. -/
theorem used_word_total_on_token_bearing_phrase_witness :
    (_tokens "run" ≠ [])
      ∧ ∃ b, used_word_in_sentence "The runner ran." "run" = some b :=
  ⟨by decide, used_word_total_on_token_bearing_phrase "The runner ran." "run" (by decide)⟩

/-! ### C6: the base form and the generated form set -/

/-- C6 counterexample: the empty base yields the empty form set, and a
base that is not already normalized ("Run") is replaced by its
normalization, so neither string is a member of its own form set. -/
theorem base_not_always_in_forms :
    ("" ∉ _simple_forms "") ∧ ("Run" ∉ _simple_forms "Run") := by decide

/-- C6 amended: for every base whose normalization (trim, lowercase,
whitespace collapse) is non-empty, the normalized base is a member of
the generated form set; in particular every non-empty lowercase
single-token base is in its own form set. -/
theorem norm_base_mem_simple_forms (b : String) (h : _norm b ≠ "") :
    _norm b ∈ _simple_forms b := by
  simp only [_simple_forms]
  rw [if_neg h]
  refine List.mem_filter.mpr ⟨List.mem_cons_self _ _, ?_⟩
  simpa using h

/-- Witness for the amended C6 at a concrete base. -/
theorem norm_base_mem_simple_forms_witness :
    (_norm "Run " ≠ "") ∧ _norm "Run " ∈ _simple_forms "Run " :=
  ⟨by decide, norm_base_mem_simple_forms "Run " (by decide)⟩

/-! ### C3: the Present Simple negative rule -/

/-- C3 counterexample: "She was sleeping" contains none of will/had/been
and no am/is/are token at all (so in particular no am/is/are token
gap-matched before an -ing token), yet Present Simple fails on it,
because the code also rejects on was/were combined with any -ing token
anywhere. -/
theorem present_simple_rejects_without_claimed_markers :
    (tense_heuristic_ok "She was sleeping" "Present Simple").1 = false
      ∧ "will" ∉ _tokens "She was sleeping"
      ∧ "had" ∉ _tokens "She was sleeping"
      ∧ "been" ∉ _tokens "She was sleeping"
      ∧ "am" ∉ _tokens "She was sleeping"
      ∧ "is" ∉ _tokens "She was sleeping"
      ∧ "are" ∉ _tokens "She was sleeping" := by decide

/-- C3 amended: Present Simple fails exactly when will/had/been occurs,
or when some token among am/is/are/was/were occurs anywhere together
with some token ending in "ing" anywhere (no position or gap constraint
at all); otherwise it succeeds. -/
theorem present_simple_negative_rule (s : String) :
    (tense_heuristic_ok s "Present Simple").1 = false ↔
      ("will" ∈ _tokens s ∨ "had" ∈ _tokens s ∨ "been" ∈ _tokens s ∨
        ((("am" ∈ _tokens s ∨ "is" ∈ _tokens s ∨ "are" ∈ _tokens s) ∨
          ("was" ∈ _tokens s ∨ "were" ∈ _tokens s)) ∧
          ∃ t ∈ _tokens s, strEndsWith t "ing" = true)) := by
  simp [tense_heuristic_ok, tokens_strip]
  split
  case isTrue hA =>
    simp
    tauto
  case isFalse hA =>
    split
    case isTrue hB =>
      simp
      tauto
    case isFalse hB =>
      constructor
      · intro hfalse
        simp at hfalse
      · intro hr
        rcases hr with h | h | h | hab
        · exact absurd (Or.inl (Or.inl h)) hA
        · exact absurd (Or.inl (Or.inr h)) hA
        · exact absurd (Or.inr h) hA
        · exact absurd hab hB

/-! ### C1: marker sequences and gap tolerance -/

theorem has_ing_after_cons (aux : List String) (x : String) {l : List String}
    (h : has_ing_after aux l = true) : has_ing_after aux (x :: l) = true := by
  cases l with
  | nil => simp [has_ing_after] at h
  | cons a t =>
    simp only [has_ing_after] at h ⊢
    simp [h]

theorem has_have_v3_cons (x : String) {l : List String}
    (h : has_have_v3 l = true) : has_have_v3 (x :: l) = true := by
  cases l with
  | nil => simp [has_have_v3] at h
  | cons a t =>
    simp only [has_have_v3] at h ⊢
    simp [h]

theorem has_had_v3_cons (x : String) {l : List String}
    (h : has_had_v3 l = true) : has_had_v3 (x :: l) = true := by
  cases l with
  | nil => simp [has_had_v3] at h
  | cons a t =>
    simp only [has_had_v3] at h ⊢
    simp [h]

theorem has_will_be_ing_cons (x : String) {l : List String}
    (h : has_will_be_ing l = true) : has_will_be_ing (x :: l) = true := by
  cases l with
  | nil => simp [has_will_be_ing] at h
  | cons a t =>
    cases t with
    | nil => simp [has_will_be_ing] at h
    | cons b t2 =>
      simp only [has_will_be_ing] at h ⊢
      simp [h]

theorem has_will_have_v3_cons (x : String) {l : List String}
    (h : has_will_have_v3 l = true) : has_will_have_v3 (x :: l) = true := by
  cases l with
  | nil => simp [has_will_have_v3] at h
  | cons a t =>
    cases t with
    | nil => simp [has_will_have_v3] at h
    | cons b t2 =>
      simp only [has_will_have_v3] at h ⊢
      simp [h]

theorem has_have_been_ing_cons (x : String) {l : List String}
    (h : has_have_been_ing l = true) : has_have_been_ing (x :: l) = true := by
  cases l with
  | nil => simp [has_have_been_ing] at h
  | cons a t =>
    cases t with
    | nil => simp [has_have_been_ing] at h
    | cons b t2 =>
      simp only [has_have_been_ing] at h ⊢
      simp [h]

theorem has_had_been_ing_cons (x : String) {l : List String}
    (h : has_had_been_ing l = true) : has_had_been_ing (x :: l) = true := by
  cases l with
  | nil => simp [has_had_been_ing] at h
  | cons a t =>
    cases t with
    | nil => simp [has_had_been_ing] at h
    | cons b t2 =>
      simp only [has_had_been_ing] at h ⊢
      simp [h]

theorem has_will_have_been_ing_cons (x : String) {l : List String}
    (h : has_will_have_been_ing l = true) : has_will_have_been_ing (x :: l) = true := by
  cases l with
  | nil => simp [has_will_have_been_ing] at h
  | cons a t =>
    cases t with
    | nil => simp [has_will_have_been_ing] at h
    | cons b t2 =>
      cases t2 with
      | nil => simp [has_will_have_been_ing] at h
      | cons c t3 =>
        simp only [has_will_have_been_ing] at h ⊢
        simp [h]

theorem has_ing_after_append (aux pre rest : List String) (a b : String)
    (ha : aux.contains a = true) (hb : strEndsWith b "ing" = true) :
    has_ing_after aux (pre ++ a :: b :: rest) = true := by
  induction pre with
  | nil =>
    simp [has_ing_after, hb]
    exact Or.inl (List.elem_iff.mp ha)
  | cons x xs ih => exact has_ing_after_cons aux x ih

theorem has_have_v3_append (pre rest : List String) (a b : String)
    (ha : (["have", "has"] : List String).contains a = true)
    (hb : _looks_like_v3 b = true) :
    has_have_v3 (pre ++ a :: b :: rest) = true := by
  induction pre with
  | nil =>
    have hmem : a ∈ (["have", "has"] : List String) := List.elem_iff.mp ha
    simp only [List.mem_cons, List.not_mem_nil, or_false] at hmem
    simp [has_have_v3, hb]
    exact Or.inl hmem
  | cons x xs ih => exact has_have_v3_cons x ih

theorem has_had_v3_append (pre rest : List String) (b : String)
    (hb : _looks_like_v3 b = true) :
    has_had_v3 (pre ++ "had" :: b :: rest) = true := by
  induction pre with
  | nil => simp [has_had_v3, hb]
  | cons x xs ih => exact has_had_v3_cons x ih

theorem has_will_be_ing_append (pre rest : List String) (b : String)
    (hb : strEndsWith b "ing" = true) :
    has_will_be_ing (pre ++ "will" :: "be" :: b :: rest) = true := by
  induction pre with
  | nil => simp [has_will_be_ing, hb]
  | cons x xs ih => exact has_will_be_ing_cons x ih

theorem has_will_have_v3_append (pre rest : List String) (b : String)
    (hb : _looks_like_v3 b = true) :
    has_will_have_v3 (pre ++ "will" :: "have" :: b :: rest) = true := by
  induction pre with
  | nil => simp [has_will_have_v3, hb]
  | cons x xs ih => exact has_will_have_v3_cons x ih

theorem has_have_been_ing_append (pre rest : List String) (a b : String)
    (ha : (["have", "has"] : List String).contains a = true)
    (hb : strEndsWith b "ing" = true) :
    has_have_been_ing (pre ++ a :: "been" :: b :: rest) = true := by
  induction pre with
  | nil =>
    have hmem : a ∈ (["have", "has"] : List String) := List.elem_iff.mp ha
    simp only [List.mem_cons, List.not_mem_nil, or_false] at hmem
    simp [has_have_been_ing, hb]
    exact Or.inl hmem
  | cons x xs ih => exact has_have_been_ing_cons x ih

theorem has_had_been_ing_append (pre rest : List String) (b : String)
    (hb : strEndsWith b "ing" = true) :
    has_had_been_ing (pre ++ "had" :: "been" :: b :: rest) = true := by
  induction pre with
  | nil => simp [has_had_been_ing, hb]
  | cons x xs ih => exact has_had_been_ing_cons x ih

theorem has_will_have_been_ing_append (pre rest : List String) (b : String)
    (hb : strEndsWith b "ing" = true) :
    has_will_have_been_ing (pre ++ "will" :: "have" :: "been" :: b :: rest) = true := by
  induction pre with
  | nil => simp [has_will_have_been_ing, hb]
  | cons x xs ih => exact has_will_have_been_ing_cons x ih

/-- C1 counterexample: in "They will definitely be working." the markers
will (index 1), be (index 3) and the -ing token working (index 4) occur
in order with gaps 1 and 0, both at most 3, yet Future Continuous fails,
because every sequence helper requires strictly adjacent markers. -/
theorem future_continuous_rejects_gapped_markers :
    _tokens "They will definitely be working."
        = ["they", "will", "definitely", "be", "working"]
      ∧ strEndsWith "working" "ing" = true
      ∧ (tense_heuristic_ok "They will definitely be working." "Future Continuous").1
          = false :=
  ⟨by decide, by decide, by decide⟩

/-- C1 amended: the gap tolerance is 0, not 3: for every tense built on
the marker-sequence primitive, if the markers occur strictly adjacent
(no filler tokens at all) in the sentence token sequence, the tense
heuristic returns true.  Each conjunct covers one sequence tense. -/
theorem tense_sequence_markers_adjacent (s : String) :
    (∀ pre a b rest, _tokens s = pre ++ a :: b :: rest →
        a ∈ (["am", "is", "are"] : List String) → strEndsWith b "ing" = true →
        (tense_heuristic_ok s "Present Continuous").1 = true)
  ∧ (∀ pre a b rest, _tokens s = pre ++ a :: b :: rest →
        a ∈ (["was", "were"] : List String) → strEndsWith b "ing" = true →
        (tense_heuristic_ok s "Past Continuous").1 = true)
  ∧ (∀ pre b rest, _tokens s = pre ++ "will" :: "be" :: b :: rest →
        strEndsWith b "ing" = true →
        (tense_heuristic_ok s "Future Continuous").1 = true)
  ∧ (∀ pre a b rest, _tokens s = pre ++ a :: b :: rest →
        a ∈ (["have", "has"] : List String) → _looks_like_v3 b = true →
        (tense_heuristic_ok s "Present Perfect").1 = true)
  ∧ (∀ pre b rest, _tokens s = pre ++ "had" :: b :: rest →
        _looks_like_v3 b = true →
        (tense_heuristic_ok s "Past Perfect").1 = true)
  ∧ (∀ pre b rest, _tokens s = pre ++ "will" :: "have" :: b :: rest →
        _looks_like_v3 b = true →
        (tense_heuristic_ok s "Future Perfect").1 = true)
  ∧ (∀ pre a b rest, _tokens s = pre ++ a :: "been" :: b :: rest →
        a ∈ (["have", "has"] : List String) → strEndsWith b "ing" = true →
        (tense_heuristic_ok s "Present Perfect Continuous").1 = true)
  ∧ (∀ pre b rest, _tokens s = pre ++ "had" :: "been" :: b :: rest →
        strEndsWith b "ing" = true →
        (tense_heuristic_ok s "Past Perfect Continuous").1 = true)
  ∧ (∀ pre b rest, _tokens s = pre ++ "will" :: "have" :: "been" :: b :: rest →
        strEndsWith b "ing" = true →
        (tense_heuristic_ok s "Future Perfect Continuous").1 = true) := by
  refine ⟨?_, ?_, ?_, ?_, ?_, ?_, ?_, ?_, ?_⟩
  · intro pre a b rest heq ha hb
    have hm : has_ing_after ["am", "is", "are"] (_tokens (pyStrip s)) = true := by
      rw [tokens_strip, heq]
      exact has_ing_after_append _ _ _ _ _ (List.elem_iff.mpr ha) hb
    simp [tense_heuristic_ok, hm]
  · intro pre a b rest heq ha hb
    have hm : has_ing_after ["was", "were"] (_tokens (pyStrip s)) = true := by
      rw [tokens_strip, heq]
      exact has_ing_after_append _ _ _ _ _ (List.elem_iff.mpr ha) hb
    simp [tense_heuristic_ok, hm]
  · intro pre b rest heq hb
    have hm : has_will_be_ing (_tokens (pyStrip s)) = true := by
      rw [tokens_strip, heq]
      exact has_will_be_ing_append _ _ _ hb
    simp [tense_heuristic_ok, hm]
  · intro pre a b rest heq ha hb
    have hm : has_have_v3 (_tokens (pyStrip s)) = true := by
      rw [tokens_strip, heq]
      exact has_have_v3_append _ _ _ _ (List.elem_iff.mpr ha) hb
    simp [tense_heuristic_ok, hm]
  · intro pre b rest heq hb
    have hm : has_had_v3 (_tokens (pyStrip s)) = true := by
      rw [tokens_strip, heq]
      exact has_had_v3_append _ _ _ hb
    simp [tense_heuristic_ok, hm]
  · intro pre b rest heq hb
    have hm : has_will_have_v3 (_tokens (pyStrip s)) = true := by
      rw [tokens_strip, heq]
      exact has_will_have_v3_append _ _ _ hb
    simp [tense_heuristic_ok, hm]
  · intro pre a b rest heq ha hb
    have hm : has_have_been_ing (_tokens (pyStrip s)) = true := by
      rw [tokens_strip, heq]
      exact has_have_been_ing_append _ _ _ _ (List.elem_iff.mpr ha) hb
    simp [tense_heuristic_ok, hm]
  · intro pre b rest heq hb
    have hm : has_had_been_ing (_tokens (pyStrip s)) = true := by
      rw [tokens_strip, heq]
      exact has_had_been_ing_append _ _ _ hb
    simp [tense_heuristic_ok, hm]
  · intro pre b rest heq hb
    have hm : has_will_have_been_ing (_tokens (pyStrip s)) = true := by
      rw [tokens_strip, heq]
      exact has_will_have_been_ing_append _ _ _ hb
    simp [tense_heuristic_ok, hm]

/-- Witness for the amended C1 at a concrete adjacent-marker sentence. -/
theorem tense_sequence_markers_adjacent_witness :
    (_tokens "He will be going" = ["he"] ++ "will" :: "be" :: "going" :: [])
      ∧ strEndsWith "going" "ing" = true
      ∧ (tense_heuristic_ok "He will be going" "Future Continuous").1 = true :=
  ⟨by decide, by decide,
    (tense_sequence_markers_adjacent "He will be going").2.2.1 ["he"] "going" []
      (by decide) (by decide)⟩

/-! ### C5: the aggregation invariant -/

/-- C5: every result returned by `check_sentence` satisfies
`ok = used_word AND tense_ok AND grammar_ok`, for every input and every
collaborator outcome. -/
theorem check_ok_aggregation (s w t : String) (g : Except String (List MatchRec))
    (r : SentenceCheckResult) (h : check_sentence s w t g = some r) :
    r.ok = (r.used_word && r.tense_ok && r.grammar_ok) := by
  unfold check_sentence at h
  cases hu : used_word_in_sentence s w with
  | none => rw [hu] at h; exact Option.noConfusion h
  | some used =>
    rw [hu] at h
    simp only [Option.some.injEq] at h
    subst h
    rfl

/-- Witness for C5 at a concrete input and collaborator outcome. -/
theorem check_ok_aggregation_witness :
    ∃ r, check_sentence "He ran." "run" "Past Simple" (Except.ok []) = some r
      ∧ r.ok = (r.used_word && r.tense_ok && r.grammar_ok) :=
  ⟨⟨true, true, true, true, "Correct.", []⟩, by decide,
    check_ok_aggregation "He ran." "run" "Past Simple" (Except.ok []) _ (by decide)⟩

/-! ### C4: the collaborator failure boundary -/

/-- C4: a failing collaborator call never changes whether
`check_sentence` returns (the failure is absorbed, not propagated); on
failure, the result carries `grammar_ok = false` and the diagnostic
message is one of the parts joined into the composite message; on
success, `grammar_ok` holds exactly when the returned match list is
empty. -/
theorem check_grammar_boundary (s w t e : String) (ms : List MatchRec) :
    ((check_sentence s w t (Except.error e)).isSome
        ↔ (check_sentence s w t (Except.ok ms)).isSome)
    ∧ (∀ r, check_sentence s w t (Except.error e) = some r →
        r.grammar_ok = false
          ∧ ∃ parts, parts ≠ [] ∧ r.message = joinSpace parts
              ∧ ("Grammar check error: " ++ e) ∈ parts)
    ∧ (∀ r, check_sentence s w t (Except.ok ms) = some r →
        (r.grammar_ok = true ↔ ms = [])) := by
  refine ⟨?_, ?_, ?_⟩
  · cases hu : used_word_in_sentence s w <;> simp [check_sentence, hu]
  · intro r h
    unfold check_sentence at h
    cases hu : used_word_in_sentence s w with
    | none => rw [hu] at h; exact Option.noConfusion h
    | some used =>
      rw [hu] at h
      simp only [Option.some.injEq] at h
      subst h
      refine ⟨rfl, ?_⟩
      have hmem : ("Grammar check error: " ++ e)
          ∈ msg_parts used (tense_heuristic_ok s t).1 (tense_heuristic_ok s t).2 false
              ("Grammar check error: " ++ e) false := by
        simp [msg_parts]
      have hne := List.ne_nil_of_mem hmem
      refine ⟨_, hne, ?_, hmem⟩
      simp [hne]
  · intro r h
    unfold check_sentence at h
    cases hu : used_word_in_sentence s w with
    | none => rw [hu] at h; exact Option.noConfusion h
    | some used =>
      rw [hu] at h
      simp only [Option.some.injEq] at h
      subst h
      cases ms with
      | nil => simp
      | cons f fs => simp

/-- Witness for C4 at a concrete input and a concrete failing call. -/
theorem check_grammar_boundary_witness :
    ∃ r, check_sentence "He ran." "run" "Past Simple" (Except.error "timeout") = some r
      ∧ r.grammar_ok = false := by
  refine ⟨⟨false, true, true, false, "Grammar check error: timeout", []⟩, by decide, ?_⟩
  exact ((check_grammar_boundary "He ran." "run" "Past Simple" "timeout" []).2.1
    _ (by decide)).1

/-! ### C10: the composite message is always meaningful -/

theorem joinSpace_head_le (x : String) (l : List String) :
    x.length ≤ (joinSpace (x :: l)).length := by
  cases l with
  | nil => exact Nat.le_refl _
  | cons y ys =>
    show x.length ≤ (x ++ " " ++ joinSpace (y :: ys)).length
    rw [String.length_append, String.length_append]
    omega

theorem joinSpace_ne_of_head_len {x : String} (l : List String) (hx : 3 ≤ x.length) :
    joinSpace (x :: l) ≠ "" ∧ joinSpace (x :: l) ≠ "OK" := by
  have hlen := Nat.le_trans hx (joinSpace_head_le x l)
  constructor
  · intro he
    rw [he] at hlen
    exact absurd hlen (by decide)
  · intro he
    rw [he] at hlen
    exact absurd hlen (by decide)

theorem three_le_length_append (pre x : String) (h : 3 ≤ pre.length) :
    3 ≤ (pre ++ x).length := by
  rw [String.length_append]
  omega

theorem append_ne_of_length {pre x y : String} (h : y.length < pre.length) :
    pre ++ x ≠ y := by
  intro he
  have hl := congrArg String.length he
  rw [String.length_append] at hl
  omega

theorem msg_parts_analysis (u tk gk : Bool) (tm gm : String) (msg : String)
    (hgm3 : 3 ≤ gm.length) (hgmne : gm ≠ "Correct.")
    (hmsg : msg = if msg_parts u tk tm gk gm (u && tk && gk) = [] then "OK"
        else joinSpace (msg_parts u tk tm gk gm (u && tk && gk))) :
    msg ≠ "" ∧ msg ≠ "OK"
      ∧ ((u && tk && gk) = true → msg = "Correct.")
      ∧ ((u && tk && gk) = false →
          ∃ ps, ps ≠ [] ∧ msg = joinSpace ps ∧ "Correct." ∉ ps) := by
  subst hmsg
  cases u <;> cases tk <;> cases gk <;> simp [msg_parts]
  · refine ⟨(joinSpace_ne_of_head_len _ (by decide)).1,
      (joinSpace_ne_of_head_len _ (by decide)).2,
      ["Word not used (content token not found).", "Tense mismatch: " ++ tm, gm],
      by simp, rfl, ?_⟩
    simp only [List.mem_cons, List.not_mem_nil, or_false, not_or]
    exact ⟨by decide, fun h => append_ne_of_length (by decide) h.symm,
      fun h => hgmne h.symm⟩
  · refine ⟨(joinSpace_ne_of_head_len _ (by decide)).1,
      (joinSpace_ne_of_head_len _ (by decide)).2,
      ["Word not used (content token not found).", "Tense mismatch: " ++ tm],
      by simp, rfl, ?_⟩
    simp only [List.mem_cons, List.not_mem_nil, or_false, not_or]
    exact ⟨by decide, fun h => append_ne_of_length (by decide) h.symm⟩
  · refine ⟨(joinSpace_ne_of_head_len _ (by decide)).1,
      (joinSpace_ne_of_head_len _ (by decide)).2,
      ["Word not used (content token not found).", gm],
      by simp, rfl, ?_⟩
    simp only [List.mem_cons, List.not_mem_nil, or_false, not_or]
    exact ⟨by decide, fun h => hgmne h.symm⟩
  · refine ⟨(joinSpace_ne_of_head_len _ (by decide)).1,
      (joinSpace_ne_of_head_len _ (by decide)).2,
      ["Word not used (content token not found)."],
      by simp, rfl, ?_⟩
    simp only [List.mem_cons, List.not_mem_nil, or_false, not_or]
    decide
  · refine ⟨(joinSpace_ne_of_head_len _ (three_le_length_append _ _ (by decide))).1,
      (joinSpace_ne_of_head_len _ (three_le_length_append _ _ (by decide))).2,
      ["Tense mismatch: " ++ tm, gm],
      by simp, rfl, ?_⟩
    simp only [List.mem_cons, List.not_mem_nil, or_false, not_or]
    exact ⟨fun h => append_ne_of_length (by decide) h.symm, fun h => hgmne h.symm⟩
  · refine ⟨(joinSpace_ne_of_head_len _ (three_le_length_append _ _ (by decide))).1,
      (joinSpace_ne_of_head_len _ (three_le_length_append _ _ (by decide))).2,
      ["Tense mismatch: " ++ tm],
      by simp, rfl, ?_⟩
    simp only [List.mem_cons, List.not_mem_nil, or_false, not_or]
    exact fun h => append_ne_of_length (by decide) h.symm
  · refine ⟨(joinSpace_ne_of_head_len _ hgm3).1, (joinSpace_ne_of_head_len _ hgm3).2,
      [gm], by simp, rfl, ?_⟩
    simp only [List.mem_cons, List.not_mem_nil, or_false, not_or]
    exact fun h => hgmne h.symm
  · exact ⟨by decide, by decide, rfl⟩

/-- C10: every result returned by `check_sentence` carries a non-empty
message; when `ok` holds it is exactly "Correct."; when `ok` fails it is
the join of a non-empty list of failure notes (none of which is
"Correct."); the "OK" default for an empty composite is never produced. -/
theorem check_message_meaningful (s w t : String) (g : Except String (List MatchRec))
    (r : SentenceCheckResult) (h : check_sentence s w t g = some r) :
    r.message ≠ "" ∧ r.message ≠ "OK"
      ∧ (r.ok = true → r.message = "Correct.")
      ∧ (r.ok = false → ∃ parts, parts ≠ [] ∧ r.message = joinSpace parts
            ∧ "Correct." ∉ parts) := by
  unfold check_sentence at h
  cases hu : used_word_in_sentence s w with
  | none => rw [hu] at h; exact Option.noConfusion h
  | some used =>
    rw [hu] at h
    simp only [Option.some.injEq] at h
    subst h
    cases g with
    | error e =>
      exact msg_parts_analysis used (tense_heuristic_ok s t).1 false
        (tense_heuristic_ok s t).2 ("Grammar check error: " ++ e) _
        (three_le_length_append _ _ (by decide))
        (append_ne_of_length (by decide)) rfl
    | ok ms =>
      cases ms with
      | nil =>
        exact msg_parts_analysis used (tense_heuristic_ok s t).1 true
          (tense_heuristic_ok s t).2 "Grammar: OK." _ (by decide)
          (by decide) rfl
      | cons f fs =>
        exact msg_parts_analysis used (tense_heuristic_ok s t).1 false
          (tense_heuristic_ok s t).2 ("Grammar: " ++ f.message.getD "Errors found.") _
          (three_le_length_append _ _ (by decide))
          (append_ne_of_length (by decide)) rfl

/-- Witness for C10 at a concrete input and a failing collaborator. -/
theorem check_message_meaningful_witness :
    ∃ r, check_sentence "He ran." "run" "Past Simple" (Except.error "down") = some r
      ∧ r.message ≠ "" ∧ r.message ≠ "OK" := by
  have h := check_message_meaningful "He ran." "run" "Past Simple" (Except.error "down")
    ⟨false, true, true, false, "Grammar check error: down", []⟩ (by decide)
  exact ⟨_, by decide, h.1, h.2.1⟩

end GrammarOnline
